import Mathlib

/-!
Verification of the approximate-Riemann-solver core of the riemann_book
repository (Burgers_approximate.ipynb and the Euler comparison notebook).
States are rationals (Burgers) or triples of rationals (Euler); each
approximate solver returns a list of waves, a wave being a pair of a
strength (a state vector) and a scalar speed.
-/

/-- Burgers flux, f q = q^2 / 2 (Burgers_approximate.ipynb, the equation cell). -/
def burgersFlux (q : ℚ) : ℚ := q ^ 2 / 2

/-- Sum of the wave strengths of a wave decomposition. -/
def waveSum {α : Type} [AddCommMonoid α] (ws : List (α × ℚ)) : α :=
  (ws.map Prod.fst).sum

/-- Sum of speed times strength over a wave decomposition. -/
def waveFluxSum {α : Type} [AddCommMonoid α] [SMul ℚ α] (ws : List (α × ℚ)) : α :=
  (ws.map (fun w => w.2 • w.1)).sum

/-- Left-going fluctuation of a scalar wave decomposition.
Modelled from the spec: the portion of the flux difference attributed to
left-going waves (speeds clipped at zero from above): the compiled Python
solver clawpack.riemann.burgers_1D_py is not part of this repository. -/
def amdq (ws : List (ℚ × ℚ)) : ℚ := (ws.map (fun w => min w.2 0 * w.1)).sum

/-- Right-going fluctuation of a scalar wave decomposition.
Modelled from the spec: the portion of the flux difference attributed to
right-going waves. -/
def apdq (ws : List (ℚ × ℚ)) : ℚ := (ws.map (fun w => max w.2 0 * w.1)).sum

/-- The Burgers approximate solver of Burgers_approximate.ipynb: a single
Roe wave of strength qr - ql and speed (ql + qr) / 2; with the entropy fix
on and a transonic interface (ql < 0 < qr), the two entropy-fix waves
through the sonic middle state qm = 0 (the cell-15 formulas). -/
def burgersWaves (efix : Bool) (ql qr : ℚ) : List (ℚ × ℚ) :=
  if efix ∧ ql < 0 ∧ 0 < qr then
    let qm : ℚ := 0
    [(qm - ql, (ql + qm) / 2), (qr - qm, (qm + qr) / 2)]
  else
    [(qr - ql, (ql + qr) / 2)]

/-- The full two-wave HLL solver for Burgers (cell-14 of
Burgers_approximate.ipynb): speeds s1 = min ql qr and s2 = max ql qr, and
middle state qm = (ql + qr) / 2. -/
def burgersHLLWaves (ql qr : ℚ) : List (ℚ × ℚ) :=
  let qm : ℚ := (ql + qr) / 2
  [(qm - ql, min ql qr), (qr - qm, max ql qr)]

/-- The classic-scheme numerical flux rule of cell-3 of
Burgers_approximate.ipynb: F = f ql when the wave speed s = (ql + qr) / 2
is positive, F = f qr when it is negative (at s = 0 the two agree). -/
def burgersClassicFlux (ql qr : ℚ) : ℚ :=
  let s := (ql + qr) / 2
  if 0 < s then burgersFlux ql
  else if s < 0 then burgersFlux qr
  else burgersFlux ql

/-- Euler state vector: density, momentum, total energy. -/
abbrev E3 : Type := ℚ × ℚ × ℚ

/-- Euler pressure, p = (gamma - 1) (E - m^2 / (2 rho)). -/
def eulerPressure (γ : ℚ) (q : E3) : ℚ :=
  (γ - 1) * (q.2.2 - q.2.1 ^ 2 / (2 * q.1))

/-- Euler flux vector (m, m^2 / rho + p, m / rho * (E + p)). -/
def eulerFlux (γ : ℚ) (q : E3) : E3 :=
  (q.2.1, q.2.1 ^ 2 / q.1 + eulerPressure γ q,
    q.2.1 / q.1 * (q.2.2 + eulerPressure γ q))

/-- Modelled from the spec: the Roe-averaged velocity for the Euler
equations, with square-root density weights.  The compiled Python solver
clawpack.riemann.euler_1D_py.euler_roe_1D is not part of this repository;
the irrational square roots of the densities are passed in as the
parameters sl and sr, constrained by hypotheses in the theorems. -/
def eulerRoeU (Ql Qr : E3) (sl sr : ℚ) : ℚ :=
  (Ql.2.1 / sl + Qr.2.1 / sr) / (sl + sr)

/-- Modelled from the spec: the Roe-averaged total specific enthalpy for
the Euler equations, with square-root density weights. -/
def eulerRoeH (γ : ℚ) (Ql Qr : E3) (sl sr : ℚ) : ℚ :=
  ((Ql.2.2 + eulerPressure γ Ql) / sl + (Qr.2.2 + eulerPressure γ Qr) / sr) /
    (sl + sr)

/-- Modelled from the spec: the three Roe waves built from an averaged
velocity u, enthalpy H and sound speed a: project the jump (d0, d1, d2)
onto the eigenvectors of the linearized flux Jacobian; the eigenvalues
u - a, u, u + a are the wave speeds. -/
def roeWavesOf (γ u H a d0 d1 d2 : ℚ) : List (E3 × ℚ) :=
  let al2 := (γ - 1) / a ^ 2 * ((H - u ^ 2) * d0 + u * d1 - d2)
  let al3 := (d1 + (a - u) * d0 - a * al2) / (2 * a)
  let al1 := d0 - al2 - al3
  [(al1 • ((1 : ℚ), u - a, H - u * a), u - a),
   (al2 • ((1 : ℚ), u, u ^ 2 / 2), u),
   (al3 • ((1 : ℚ), u + a, H + u * a), u + a)]

/-- Modelled from the spec: the Roe solver for the Euler equations, the
wave construction applied at the square-root-density-weighted averaged
state; a stands for the Roe sound speed. -/
def eulerRoeWaves (γ : ℚ) (Ql Qr : E3) (sl sr a : ℚ) : List (E3 × ℚ) :=
  roeWavesOf γ (eulerRoeU Ql Qr sl sr) (eulerRoeH γ Ql Qr sl sr) a
    (Qr.1 - Ql.1) (Qr.2.1 - Ql.2.1) (Qr.2.2 - Ql.2.2)

/-- Modelled from the spec: the two HLL waves with bounding speeds s1, s2
whose middle state is the one enforcing conservation across both speeds. -/
def hllWavesOf (s1 s2 : ℚ) (Ql Qr fl fr : E3) : List (E3 × ℚ) :=
  let qm := (s2 - s1)⁻¹ • (s2 • Qr - s1 • Ql - (fr - fl))
  [(qm - Ql, s1), (Qr - qm, s2)]

/-- Modelled from the spec: the HLL solver for the Euler equations, with
bounding speeds the smallest and the largest acoustic characteristic
speeds u - c and u + c of the two states; the irrational sound speeds are
passed in as the parameters cl and cr. -/
def eulerHLLWaves (γ : ℚ) (Ql Qr : E3) (cl cr : ℚ) : List (E3 × ℚ) :=
  let ul := Ql.2.1 / Ql.1
  let ur := Qr.2.1 / Qr.1
  let s1 := min (ul - cl) (ur - cr)
  let s2 := max (ul + cl) (ur + cr)
  hllWavesOf s1 s2 Ql Qr (eulerFlux γ Ql) (eulerFlux γ Qr)

/-- The per-equation Riemann solver functions the comparison notebook can
bind to the local variable rs. -/
inductive EulerRS : Type
  | euler_roe_1D : EulerRS
  | euler_hll_1D : EulerRS
deriving DecidableEq

/-- The solver object as configured by shocktube and blastwave in the
comparison notebook: which Riemann solver it wraps, whether it is the
high-order SharpClaw solver, and the attributes the notebook assigns on
it; none records an attribute the notebook leaves at the library default. -/
structure SolverCfg : Type where
  rs : EulerRS
  is_sharpclaw : Bool
  time_integrator : Option String
  cfl_max : Option ℚ
  cfl_desired : Option ℚ
  lim_type : Option Nat
deriving DecidableEq

/-- The controller configuration returned by shocktube and blastwave:
the configured solver, the entropy-fix flag written into problem_data,
gamma, and the final time. -/
structure ClawCfg : Type where
  solver : SolverCfg
  efix : Bool
  gamma : ℚ
  tfinal : ℚ
deriving DecidableEq

/-- The riemann_solver dispatch shared by shocktube and blastwave: only
the exact strings Roe and HLL bind the local variable rs; any other
string leaves rs unbound, so constructing the solver raises an unhandled
name error, modelled as none. -/
def selectRS (riemann_solver : String) : Option EulerRS :=
  if riemann_solver = "Roe" then some EulerRS.euler_roe_1D
  else if riemann_solver = "HLL" then some EulerRS.euler_hll_1D
  else none

/-- The shocktube constructor of the comparison notebook: picks the
Riemann solver by name, builds a classic ClawSolver1D or a SharpClaw
solver without assigning any integrator or CFL attribute, and sets the
problem_data entropy-fix flag to False unconditionally. -/
def shocktube (riemann_solver solver_type : String) : Option ClawCfg :=
  (selectRS riemann_solver).map fun rs =>
    let solver : SolverCfg :=
      if solver_type = "classic" then ⟨rs, false, none, none, none, none⟩
      else ⟨rs, true, none, none, none, none⟩
    ⟨solver, false, 7/5, 1/2⟩

/-- The blastwave constructor of the comparison notebook: like shocktube,
but its SharpClaw branch assigns time_integrator SSP33, cfl_max 0.65,
cfl_desired 0.6 and lim_type 1; the entropy-fix flag is again False
unconditionally. -/
def blastwave (riemann_solver solver_type : String) : Option ClawCfg :=
  (selectRS riemann_solver).map fun rs =>
    let solver : SolverCfg :=
      if solver_type = "classic" then ⟨rs, false, none, none, none, none⟩
      else ⟨rs, true, some "SSP33", some (13/20), some (3/5), some 1⟩
    ⟨solver, false, 7/5, 19/500⟩

section RoeLemmas

/-- The strengths of the three Roe waves sum to the input jump, for any
averaged state whose sound speed a is consistent with u and H. -/
theorem roeWavesOf_sum (γ u H a d0 d1 d2 : ℚ) (ha : a ≠ 0) (hγ : γ ≠ 1)
    (hH : H = a ^ 2 / (γ - 1) + u ^ 2 / 2) :
    waveSum (roeWavesOf γ u H a d0 d1 d2) = (d0, d1, d2) := by
  have hγ1 : γ - 1 ≠ 0 := sub_ne_zero.mpr hγ
  subst hH
  simp only [roeWavesOf, waveSum, List.map_cons, List.map_nil, List.sum_cons,
    List.sum_nil, Prod.smul_mk, smul_eq_mul, Prod.mk_add_mk, add_zero,
    Prod.mk.injEq]
  refine ⟨?_, ?_, ?_⟩ <;> field_simp <;> ring

/-- Speed-weighted strength sum of the three Roe waves, expressed in the
averaged quantities. -/
theorem roeWavesOf_fluxSum (γ u H a d0 d1 d2 : ℚ) (ha : a ≠ 0) (hγ : γ ≠ 1)
    (hH : H = a ^ 2 / (γ - 1) + u ^ 2 / 2) :
    waveFluxSum (roeWavesOf γ u H a d0 d1 d2) =
      (d1,
       (γ - 3) / 2 * u ^ 2 * d0 + (3 - γ) * u * d1 + (γ - 1) * d2,
       ((γ - 1) * u ^ 3 / 2 - u * H) * d0 + (H - (γ - 1) * u ^ 2) * d1 +
         γ * u * d2) := by
  have hγ1 : γ - 1 ≠ 0 := sub_ne_zero.mpr hγ
  subst hH
  simp only [roeWavesOf, waveFluxSum, List.map_cons, List.map_nil,
    List.sum_cons, List.sum_nil, Prod.smul_mk, smul_eq_mul, Prod.mk_add_mk,
    add_zero, Prod.mk.injEq]
  refine ⟨?_, ?_, ?_⟩ <;> field_simp <;> ring

/-- Conservation of the Euler Roe solver: the wave strengths sum to the
state jump. -/
theorem eulerRoeWaves_sum (γ : ℚ) (Ql Qr : E3) (sl sr a : ℚ) (ha : a ≠ 0)
    (hγ : γ ≠ 1)
    (ha2 : a ^ 2 = (γ - 1) *
      (eulerRoeH γ Ql Qr sl sr - (eulerRoeU Ql Qr sl sr) ^ 2 / 2)) :
    waveSum (eulerRoeWaves γ Ql Qr sl sr a) = Qr - Ql := by
  have hγ1 : γ - 1 ≠ 0 := sub_ne_zero.mpr hγ
  have hHd : eulerRoeH γ Ql Qr sl sr =
      a ^ 2 / (γ - 1) + (eulerRoeU Ql Qr sl sr) ^ 2 / 2 := by
    rw [ha2]; field_simp; ring
  rw [eulerRoeWaves, roeWavesOf_sum γ _ _ a _ _ _ ha hγ hHd]
  obtain ⟨ρl, ml, El⟩ := Ql
  obtain ⟨ρr, mr, Er⟩ := Qr
  rfl

/-- Roe property for the Euler Roe solver: the speed-weighted wave
strengths sum to the flux difference, given the square-root-density
consistency of the parameters sl, sr. -/
theorem eulerRoeWaves_fluxSum (γ : ℚ) (Ql Qr : E3) (sl sr a : ℚ)
    (hsl : 0 < sl) (hsr : 0 < sr)
    (hsl2 : sl ^ 2 = Ql.1) (hsr2 : sr ^ 2 = Qr.1)
    (ha : a ≠ 0) (hγ : γ ≠ 1)
    (ha2 : a ^ 2 = (γ - 1) *
      (eulerRoeH γ Ql Qr sl sr - (eulerRoeU Ql Qr sl sr) ^ 2 / 2)) :
    waveFluxSum (eulerRoeWaves γ Ql Qr sl sr a) =
      eulerFlux γ Qr - eulerFlux γ Ql := by
  have hγ1 : γ - 1 ≠ 0 := sub_ne_zero.mpr hγ
  have hHd : eulerRoeH γ Ql Qr sl sr =
      a ^ 2 / (γ - 1) + (eulerRoeU Ql Qr sl sr) ^ 2 / 2 := by
    rw [ha2]; field_simp; ring
  rw [eulerRoeWaves, roeWavesOf_fluxSum γ _ _ a _ _ _ ha hγ hHd]
  obtain ⟨ρl, ml, El⟩ := Ql
  obtain ⟨ρr, mr, Er⟩ := Qr
  simp only at hsl2 hsr2
  subst hsl2
  subst hsr2
  have hsl0 : sl ≠ 0 := ne_of_gt hsl
  have hsr0 : sr ≠ 0 := ne_of_gt hsr
  have hss : sl + sr ≠ 0 := by positivity
  simp only [eulerRoeU, eulerRoeH, eulerPressure, eulerFlux, Prod.mk_sub_mk,
    Prod.mk.injEq]
  refine ⟨?_, ?_, ?_⟩
  · field_simp
  · field_simp
    ring
  · field_simp
    ring

end RoeLemmas

section HLLLemmas

/-- The strengths of the two HLL waves sum to the state jump, whatever
the bounding speeds. -/
theorem hllWavesOf_sum (s1 s2 : ℚ) (Ql Qr fl fr : E3) :
    waveSum (hllWavesOf s1 s2 Ql Qr fl fr) = Qr - Ql := by
  obtain ⟨x1, x2, x3⟩ := Ql
  obtain ⟨y1, y2, y3⟩ := Qr
  obtain ⟨g1, g2, g3⟩ := fl
  obtain ⟨h1, h2, h3⟩ := fr
  simp only [hllWavesOf, waveSum, List.map_cons, List.map_nil, List.sum_cons,
    List.sum_nil, Prod.smul_mk, smul_eq_mul, Prod.mk_add_mk, Prod.mk_sub_mk,
    add_zero, Prod.mk.injEq]
  refine ⟨?_, ?_, ?_⟩ <;> ring

/-- Conservation of the HLL middle state: the speed-weighted strengths of
the two HLL waves sum to the given flux difference when the bounding
speeds differ. -/
theorem hllWavesOf_fluxSum (s1 s2 : ℚ) (Ql Qr fl fr : E3) (h : s1 ≠ s2) :
    waveFluxSum (hllWavesOf s1 s2 Ql Qr fl fr) = fr - fl := by
  have hs : s2 - s1 ≠ 0 := sub_ne_zero.mpr (Ne.symm h)
  obtain ⟨x1, x2, x3⟩ := Ql
  obtain ⟨y1, y2, y3⟩ := Qr
  obtain ⟨g1, g2, g3⟩ := fl
  obtain ⟨h1, h2, h3⟩ := fr
  simp only [hllWavesOf, waveFluxSum, List.map_cons, List.map_nil,
    List.sum_cons, List.sum_nil, Prod.smul_mk, smul_eq_mul, Prod.mk_add_mk,
    Prod.mk_sub_mk, add_zero, Prod.mk.injEq]
  refine ⟨?_, ?_, ?_⟩ <;> field_simp <;> ring

/-- The acoustic bounding speeds of the Euler HLL solver differ whenever
the left sound-speed bound is positive. -/
theorem eulerHLL_speeds_ne (Ql Qr : E3) (cl cr : ℚ) (hcl : 0 < cl) :
    min (Ql.2.1 / Ql.1 - cl) (Qr.2.1 / Qr.1 - cr) ≠
      max (Ql.2.1 / Ql.1 + cl) (Qr.2.1 / Qr.1 + cr) := by
  have h1 : min (Ql.2.1 / Ql.1 - cl) (Qr.2.1 / Qr.1 - cr) ≤
      Ql.2.1 / Ql.1 - cl := min_le_left _ _
  have h2 : Ql.2.1 / Ql.1 + cl ≤
      max (Ql.2.1 / Ql.1 + cl) (Qr.2.1 / Qr.1 + cr) := le_max_left _ _
  have : Ql.2.1 / Ql.1 - cl < Ql.2.1 / Ql.1 + cl := by linarith
  exact ne_of_lt (by linarith)

/-- Conservation of the Euler HLL solver: strengths sum to the jump. -/
theorem eulerHLLWaves_sum (γ : ℚ) (Ql Qr : E3) (cl cr : ℚ) :
    waveSum (eulerHLLWaves γ Ql Qr cl cr) = Qr - Ql := by
  rw [eulerHLLWaves]
  exact hllWavesOf_sum _ _ _ _ _ _

/-- Consistency of the Euler HLL solver: speed-weighted strengths sum to
the flux difference when the left sound-speed bound is positive. -/
theorem eulerHLLWaves_fluxSum (γ : ℚ) (Ql Qr : E3) (cl cr : ℚ)
    (hcl : 0 < cl) :
    waveFluxSum (eulerHLLWaves γ Ql Qr cl cr) =
      eulerFlux γ Qr - eulerFlux γ Ql := by
  rw [eulerHLLWaves]
  exact hllWavesOf_fluxSum _ _ _ _ _ _ (eulerHLL_speeds_ne Ql Qr cl cr hcl)

end HLLLemmas

section BurgersLemmas

/-- Strengths of the Burgers solver waves sum to the jump, with or
without the entropy fix. -/
theorem burgersWaves_sum (efix : Bool) (ql qr : ℚ) :
    waveSum (burgersWaves efix ql qr) = qr - ql := by
  rw [burgersWaves]
  split_ifs
  all_goals simp only [waveSum, List.map_cons, List.map_nil, List.sum_cons,
    List.sum_nil, add_zero]
  all_goals ring

/-- Speed-weighted strengths of the Burgers solver waves sum to the flux
difference, with or without the entropy fix. -/
theorem burgersWaves_fluxSum (efix : Bool) (ql qr : ℚ) :
    waveFluxSum (burgersWaves efix ql qr) =
      burgersFlux qr - burgersFlux ql := by
  rw [burgersWaves]
  split_ifs <;>
    simp only [waveFluxSum, List.map_cons, List.map_nil, List.sum_cons,
      List.sum_nil, add_zero, smul_eq_mul, burgersFlux] <;> ring

/-- Strengths of the two-wave Burgers HLL solver sum to the jump. -/
theorem burgersHLLWaves_sum (ql qr : ℚ) :
    waveSum (burgersHLLWaves ql qr) = qr - ql := by
  simp only [burgersHLLWaves, waveSum, List.map_cons, List.map_nil,
    List.sum_cons, List.sum_nil, add_zero]
  ring

/-- Speed-weighted strengths of the two-wave Burgers HLL solver sum to
the flux difference. -/
theorem burgersHLLWaves_fluxSum (ql qr : ℚ) :
    waveFluxSum (burgersHLLWaves ql qr) =
      burgersFlux qr - burgersFlux ql := by
  simp only [burgersHLLWaves, waveFluxSum, List.map_cons, List.map_nil,
    List.sum_cons, List.sum_nil, add_zero, smul_eq_mul, burgersFlux]
  rcases le_total ql qr with h | h
  · rw [min_eq_left h, max_eq_right h]; ring
  · rw [min_eq_right h, max_eq_left h]; ring

end BurgersLemmas

/-- C1: for every pair of input states, for both equations and both the
Roe and HLL strategies, the wave decomposition is conservative and
consistent: the strengths sum to the state jump and the speed-weighted
strengths sum to the flux difference.  For the Euler solvers, which are
modelled from the spec, the irrational square roots of density and the
averaged or acoustic sound speeds enter as constrained parameters. -/
theorem C1_conservation_consistency (efix : Bool) (ql qr : ℚ) (γ : ℚ)
    (Ql Qr : E3) (sl sr a cl cr : ℚ)
    (hsl : 0 < sl) (hsr : 0 < sr)
    (hsl2 : sl ^ 2 = Ql.1) (hsr2 : sr ^ 2 = Qr.1)
    (ha : a ≠ 0) (hγ : γ ≠ 1)
    (ha2 : a ^ 2 = (γ - 1) *
      (eulerRoeH γ Ql Qr sl sr - (eulerRoeU Ql Qr sl sr) ^ 2 / 2))
    (hcl : 0 < cl) :
    (waveSum (burgersWaves efix ql qr) = qr - ql ∧
      waveFluxSum (burgersWaves efix ql qr) =
        burgersFlux qr - burgersFlux ql) ∧
    (waveSum (burgersHLLWaves ql qr) = qr - ql ∧
      waveFluxSum (burgersHLLWaves ql qr) =
        burgersFlux qr - burgersFlux ql) ∧
    (waveSum (eulerRoeWaves γ Ql Qr sl sr a) = Qr - Ql ∧
      waveFluxSum (eulerRoeWaves γ Ql Qr sl sr a) =
        eulerFlux γ Qr - eulerFlux γ Ql) ∧
    (waveSum (eulerHLLWaves γ Ql Qr cl cr) = Qr - Ql ∧
      waveFluxSum (eulerHLLWaves γ Ql Qr cl cr) =
        eulerFlux γ Qr - eulerFlux γ Ql) :=
  ⟨⟨burgersWaves_sum efix ql qr, burgersWaves_fluxSum efix ql qr⟩,
   ⟨burgersHLLWaves_sum ql qr, burgersHLLWaves_fluxSum ql qr⟩,
   ⟨eulerRoeWaves_sum γ Ql Qr sl sr a ha hγ ha2,
    eulerRoeWaves_fluxSum γ Ql Qr sl sr a hsl hsr hsl2 hsr2 ha hγ ha2⟩,
   ⟨eulerHLLWaves_sum γ Ql Qr cl cr,
    eulerHLLWaves_fluxSum γ Ql Qr cl cr hcl⟩⟩

/-- Witness for C1 at efix on, Burgers states 1, 2, gamma 7/5 and the
Euler state (1, 0, 7/2) on both sides, where the density square roots
and the Roe sound speed are rational. -/
theorem C1_witness :
    ((0 : ℚ) < 1 ∧ (0 : ℚ) < 1 ∧
      (1 : ℚ) ^ 2 = (((1 : ℚ), (0 : ℚ), (7/2 : ℚ)) : E3).1 ∧
      (1 : ℚ) ^ 2 = (((1 : ℚ), (0 : ℚ), (7/2 : ℚ)) : E3).1 ∧
      (7/5 : ℚ) ≠ 0 ∧ (7/5 : ℚ) ≠ 1 ∧
      (7/5 : ℚ) ^ 2 = ((7/5 : ℚ) - 1) *
        (eulerRoeH (7/5) ((1 : ℚ), (0 : ℚ), (7/2 : ℚ))
            ((1 : ℚ), (0 : ℚ), (7/2 : ℚ)) 1 1 -
          (eulerRoeU ((1 : ℚ), (0 : ℚ), (7/2 : ℚ))
              ((1 : ℚ), (0 : ℚ), (7/2 : ℚ)) 1 1) ^ 2 / 2) ∧
      (0 : ℚ) < 1) ∧
    ((waveSum (burgersWaves true 1 2) = 2 - 1 ∧
      waveFluxSum (burgersWaves true 1 2) = burgersFlux 2 - burgersFlux 1) ∧
    (waveSum (burgersHLLWaves 1 2) = 2 - 1 ∧
      waveFluxSum (burgersHLLWaves 1 2) = burgersFlux 2 - burgersFlux 1) ∧
    (waveSum (eulerRoeWaves (7/5) ((1 : ℚ), (0 : ℚ), (7/2 : ℚ))
        ((1 : ℚ), (0 : ℚ), (7/2 : ℚ)) 1 1 (7/5)) =
        ((1 : ℚ), (0 : ℚ), (7/2 : ℚ)) - ((1 : ℚ), (0 : ℚ), (7/2 : ℚ)) ∧
      waveFluxSum (eulerRoeWaves (7/5) ((1 : ℚ), (0 : ℚ), (7/2 : ℚ))
        ((1 : ℚ), (0 : ℚ), (7/2 : ℚ)) 1 1 (7/5)) =
        eulerFlux (7/5) ((1 : ℚ), (0 : ℚ), (7/2 : ℚ)) -
          eulerFlux (7/5) ((1 : ℚ), (0 : ℚ), (7/2 : ℚ))) ∧
    (waveSum (eulerHLLWaves (7/5) ((1 : ℚ), (0 : ℚ), (7/2 : ℚ))
        ((1 : ℚ), (0 : ℚ), (7/2 : ℚ)) 1 1) =
        ((1 : ℚ), (0 : ℚ), (7/2 : ℚ)) - ((1 : ℚ), (0 : ℚ), (7/2 : ℚ)) ∧
      waveFluxSum (eulerHLLWaves (7/5) ((1 : ℚ), (0 : ℚ), (7/2 : ℚ))
        ((1 : ℚ), (0 : ℚ), (7/2 : ℚ)) 1 1) =
        eulerFlux (7/5) ((1 : ℚ), (0 : ℚ), (7/2 : ℚ)) -
          eulerFlux (7/5) ((1 : ℚ), (0 : ℚ), (7/2 : ℚ)))) :=
  ⟨⟨by norm_num, by norm_num, by norm_num, by norm_num, by norm_num,
    by norm_num, by norm_num [eulerRoeH, eulerRoeU, eulerPressure],
    by norm_num⟩,
   C1_conservation_consistency true 1 2 (7/5)
     ((1 : ℚ), (0 : ℚ), (7/2 : ℚ)) ((1 : ℚ), (0 : ℚ), (7/2 : ℚ)) 1 1 (7/5) 1 1
     (by norm_num) (by norm_num) (by norm_num) (by norm_num) (by norm_num)
     (by norm_num) (by norm_num [eulerRoeH, eulerRoeU, eulerPressure])
     (by norm_num)⟩

/-- C2: with the entropy fix on, a transonic interface ql < 0 < qr is
resolved by exactly the two waves through the sonic middle state qm = 0,
with strengths -ql, qr, speeds ql / 2, qr / 2, and total strength
qr - ql. -/
theorem C2_entropy_fix_transonic (ql qr : ℚ) (hl : ql < 0) (hr : 0 < qr) :
    burgersWaves true ql qr = [(-ql, ql / 2), (qr, qr / 2)] ∧
      waveSum (burgersWaves true ql qr) = qr - ql := by
  refine ⟨?_, burgersWaves_sum true ql qr⟩
  rw [burgersWaves, if_pos ⟨rfl, hl, hr⟩]
  norm_num

/-- Witness for C2 at the transonic pair of the notebook, ql = -1,
qr = 2: speeds -1/2 and 1, strengths summing to 3. -/
theorem C2_witness :
    ((-1 : ℚ) < 0 ∧ (0 : ℚ) < 2) ∧
      (burgersWaves true (-1) 2 = [(-(-1), (-1) / 2), (2, 2 / 2)] ∧
        waveSum (burgersWaves true (-1) 2) = 2 - (-1)) :=
  ⟨⟨by norm_num, by norm_num⟩,
   C2_entropy_fix_transonic (-1) 2 (by norm_num) (by norm_num)⟩

/-- C3: the Roe linearization for Burgers is the single wave of strength
qr - ql at the averaged speed (ql + qr) / 2, and for any two distinct
states (always on one Hugoniot locus for a scalar equation) that speed is
the exact Rankine-Hugoniot shock speed. -/
theorem C3_roe_shock_speed (ql qr : ℚ) (h : ql ≠ qr) :
    burgersWaves false ql qr = [(qr - ql, (ql + qr) / 2)] ∧
      (ql + qr) / 2 = (burgersFlux qr - burgersFlux ql) / (qr - ql) := by
  have hq : qr - ql ≠ 0 := sub_ne_zero.mpr (Ne.symm h)
  constructor
  · rw [burgersWaves, if_neg]
    simp
  · rw [burgersFlux, burgersFlux]
    field_simp
    ring

/-- Witness for C3 at the shock pair of the notebook, ql = 2, qr = 1:
the single wave has strength -1 and speed 3/2. -/
theorem C3_witness :
    (2 : ℚ) ≠ 1 ∧
      (burgersWaves false 2 1 = [(1 - 2, (2 + 1) / 2)] ∧
        (2 + 1 : ℚ) / 2 = (burgersFlux 1 - burgersFlux 2) / (1 - 2)) :=
  ⟨by norm_num, C3_roe_shock_speed 2 1 (by norm_num)⟩

/-- C4: the full two-wave HLL solver for Burgers returns exactly the two
waves (qm - ql, min ql qr) and (qr - qm, max ql qr) with middle state
qm = (ql + qr) / 2, each wave carrying half of the jump qr - ql. -/
theorem C4_burgers_hll (ql qr : ℚ) :
    burgersHLLWaves ql qr =
      [((qr - ql) / 2, min ql qr), ((qr - ql) / 2, max ql qr)] ∧
      (ql + qr) / 2 - ql = (qr - ql) / 2 ∧
      qr - (ql + qr) / 2 = (qr - ql) / 2 := by
  refine ⟨?_, by ring, by ring⟩
  have h1 : (ql + qr) / 2 - ql = (qr - ql) / 2 := by ring
  have h2 : qr - (ql + qr) / 2 = (qr - ql) / 2 := by ring
  simp only [burgersHLLWaves]
  rw [h1, h2]

/-- C5: outside the transonic case the entropy fix changes nothing: the
fixed and unfixed Burgers solvers return the same waves and the same
fluctuations. -/
theorem C5_efix_no_effect (ql qr : ℚ) (h : ¬(ql < 0 ∧ 0 < qr)) :
    burgersWaves true ql qr = burgersWaves false ql qr ∧
      amdq (burgersWaves true ql qr) = amdq (burgersWaves false ql qr) ∧
      apdq (burgersWaves true ql qr) = apdq (burgersWaves false ql qr) := by
  have he : burgersWaves true ql qr = burgersWaves false ql qr := by
    rw [burgersWaves, burgersWaves, if_neg (fun hc => h hc.2), if_neg]
    simp
  exact ⟨he, by rw [he], by rw [he]⟩

/-- Witness for C5 at the shock pair ql = 2, qr = 1 of the notebook. -/
theorem C5_witness :
    ¬((2 : ℚ) < 0 ∧ (0 : ℚ) < 1) ∧
      (burgersWaves true 2 1 = burgersWaves false 2 1 ∧
        amdq (burgersWaves true 2 1) = amdq (burgersWaves false 2 1) ∧
        apdq (burgersWaves true 2 1) = apdq (burgersWaves false 2 1)) :=
  ⟨by norm_num, C5_efix_no_effect 2 1 (by norm_num)⟩

/-- C6: the classic-scheme numerical flux is f ql when the net wave
speed s = (ql + qr) / 2 is positive and f qr when it is negative, and at
s = 0 the two fluxes agree, so the rule never divides by a speed. -/
theorem C6_classic_flux_rule (ql qr : ℚ) :
    (0 < (ql + qr) / 2 → burgersClassicFlux ql qr = burgersFlux ql) ∧
      ((ql + qr) / 2 < 0 → burgersClassicFlux ql qr = burgersFlux qr) ∧
      ((ql + qr) / 2 = 0 → burgersFlux ql = burgersFlux qr) := by
  refine ⟨fun h => ?_, fun h => ?_, fun h => ?_⟩
  · rw [burgersClassicFlux, if_pos h]
  · rw [burgersClassicFlux, if_neg (by linarith), if_pos h]
  · have hq : qr = -ql := by linarith
    subst hq
    rw [burgersFlux, burgersFlux]
    ring

/-- Witness for C6: the flux rule applied at a right-going interface
(2, 1) and at a stationary interface (1, -1). -/
theorem C6_witness :
    burgersClassicFlux 2 1 = burgersFlux 2 ∧
      burgersFlux 1 = burgersFlux (-1) :=
  ⟨(C6_classic_flux_rule 2 1).1 (by norm_num),
   (C6_classic_flux_rule 1 (-1)).2.2 (by norm_num)⟩

/-- The two HLL waves vanish on a degenerate interface whenever the
bounding speeds differ. -/
theorem hllWavesOf_degenerate (s1 s2 : ℚ) (Q f : E3) (h : s1 ≠ s2) :
    (hllWavesOf s1 s2 Q Q f f).map Prod.fst = [0, 0] := by
  have hs : s2 - s1 ≠ 0 := sub_ne_zero.mpr (Ne.symm h)
  simp only [hllWavesOf, sub_self, sub_zero, ← sub_smul, smul_smul,
    inv_mul_cancel₀ hs, one_smul, List.map_cons, List.map_nil]

/-- C7: on a degenerate interface, where the left and right states are
exactly equal, every solver returns waves of zero strength only; no
formula divides by a state or speed difference that vanishes there (the
Euler HLL middle state divides by s2 - s1, nonzero whenever the
sound-speed bound cl is positive). -/
theorem C7_degenerate_zero_strength (efix : Bool) (q : ℚ) (γ : ℚ) (Q : E3)
    (sl sr a cl cr : ℚ) (hcl : 0 < cl) :
    (burgersWaves efix q q).map Prod.fst = [0] ∧
      (burgersHLLWaves q q).map Prod.fst = [0, 0] ∧
      (eulerRoeWaves γ Q Q sl sr a).map Prod.fst = [0, 0, 0] ∧
      (eulerHLLWaves γ Q Q cl cr).map Prod.fst = [0, 0] := by
  refine ⟨?_, ?_, ?_, ?_⟩
  · rw [burgersWaves, if_neg (fun hc => lt_asymm hc.2.1 hc.2.2)]
    simp
  · simp only [burgersHLLWaves, List.map_cons, List.map_nil,
      List.cons.injEq, and_true]
    constructor <;> ring
  · obtain ⟨r, m, E⟩ := Q
    simp only [eulerRoeWaves, roeWavesOf, sub_self, mul_zero, zero_mul,
      add_zero, zero_add, sub_zero, zero_sub, neg_zero, zero_div,
      List.map_cons, List.map_nil, zero_smul, List.cons.injEq, and_self,
      and_true]
  · rw [eulerHLLWaves]
    exact hllWavesOf_degenerate _ _ _ _ (eulerHLL_speeds_ne Q Q cl cr hcl)

/-- Witness for C7 at q = 3 for Burgers and the Euler state (1, 0, 7/2),
with entropy fix on and unit sound-speed bounds. -/
theorem C7_witness :
    (0 : ℚ) < 1 ∧
      ((burgersWaves true 3 3).map Prod.fst = [0] ∧
        (burgersHLLWaves 3 3).map Prod.fst = [0, 0] ∧
        (eulerRoeWaves (7/5) ((1 : ℚ), (0 : ℚ), (7/2 : ℚ))
            ((1 : ℚ), (0 : ℚ), (7/2 : ℚ)) 1 1 (7/5)).map Prod.fst =
          [0, 0, 0] ∧
        (eulerHLLWaves (7/5) ((1 : ℚ), (0 : ℚ), (7/2 : ℚ))
            ((1 : ℚ), (0 : ℚ), (7/2 : ℚ)) 1 1).map Prod.fst = [0, 0]) :=
  ⟨by norm_num,
   C7_degenerate_zero_strength true 3 (7/5) ((1 : ℚ), (0 : ℚ), (7/2 : ℚ))
     1 1 (7/5) 1 1 (by norm_num)⟩

/-- C8: every Euler problem built by shocktube or blastwave has the
entropy-fix flag in problem_data set to False, whatever the solver name
and scheme type. -/
theorem C8_efix_always_false :
    (∀ rs st c, shocktube rs st = some c → c.efix = false) ∧
      (∀ rs st c, blastwave rs st = some c → c.efix = false) := by
  constructor
  all_goals
    intro rs st c h
    obtain ⟨v, hv, hc⟩ := Option.map_eq_some'.mp h
    subst hc
    rfl

/-- Witness for C8 at a classic Roe shocktube and a SharpClaw HLL
blastwave. -/
theorem C8_witness :
    ((⟨⟨EulerRS.euler_roe_1D, false, none, none, none, none⟩, false, 7/5,
        1/2⟩ : ClawCfg).efix = false) ∧
      ((⟨⟨EulerRS.euler_hll_1D, true, some "SSP33", some (13/20),
          some (3/5), some 1⟩, false, 7/5, 19/500⟩ : ClawCfg).efix =
        false) :=
  ⟨C8_efix_always_false.1 "Roe" "classic" _ rfl,
   C8_efix_always_false.2 "HLL" "sharpclaw" _ rfl⟩

/-- C9 counterexample: the high-order solver built by shocktube does not
carry the SSP33 integrator setting; shocktube's SharpClaw branch assigns
no time integrator and no CFL numbers at all, so the claim that every
high-order solver the code constructs uses SSP33 with cfl_desired 0.6
and cfl_max 0.65 fails at shocktube HLL sharpclaw. -/
theorem C9_counterexample :
    shocktube "HLL" "sharpclaw" =
      some ⟨⟨EulerRS.euler_hll_1D, true, none, none, none, none⟩, false,
        7/5, 1/2⟩ ∧
      (⟨⟨EulerRS.euler_hll_1D, true, none, none, none, none⟩, false, 7/5,
          1/2⟩ : ClawCfg).solver.time_integrator ≠ some "SSP33" ∧
      (⟨⟨EulerRS.euler_hll_1D, true, none, none, none, none⟩, false, 7/5,
          1/2⟩ : ClawCfg).solver.cfl_desired ≠ some (3/5) := by
  refine ⟨rfl, ?_, ?_⟩ <;> simp

/-- C9 as amended: only the blastwave constructor equips its high-order
(SharpClaw) solver with the SSP33 integrator, cfl_desired 0.6 and
cfl_max 0.65; the high-order solver built by shocktube leaves the
integrator and both CFL attributes at the library defaults. -/
theorem C9_highorder_settings :
    (∀ rs st c, st ≠ "classic" → blastwave rs st = some c →
      c.solver.is_sharpclaw = true ∧
        c.solver.time_integrator = some "SSP33" ∧
        c.solver.cfl_desired = some (3/5) ∧
        c.solver.cfl_max = some (13/20)) ∧
      (∀ rs st c, st ≠ "classic" → shocktube rs st = some c →
        c.solver.is_sharpclaw = true ∧
          c.solver.time_integrator = none ∧
          c.solver.cfl_desired = none ∧
          c.solver.cfl_max = none) := by
  constructor
  all_goals
    intro rs st c hst h
    obtain ⟨v, hv, hc⟩ := Option.map_eq_some'.mp h
    subst hc
    simp [if_neg hst]

/-- Witness for the amended C9 at blastwave Roe sharpclaw and shocktube
HLL sharpclaw. -/
theorem C9_witness :
    ("sharpclaw" ≠ "classic" ∧
      ((⟨⟨EulerRS.euler_roe_1D, true, some "SSP33", some (13/20),
          some (3/5), some 1⟩, false, 7/5, 19/500⟩ : ClawCfg).solver.is_sharpclaw
            = true ∧
        (⟨⟨EulerRS.euler_roe_1D, true, some "SSP33", some (13/20),
          some (3/5), some 1⟩, false, 7/5, 19/500⟩ : ClawCfg).solver.time_integrator
            = some "SSP33" ∧
        (⟨⟨EulerRS.euler_roe_1D, true, some "SSP33", some (13/20),
          some (3/5), some 1⟩, false, 7/5, 19/500⟩ : ClawCfg).solver.cfl_desired
            = some (3/5) ∧
        (⟨⟨EulerRS.euler_roe_1D, true, some "SSP33", some (13/20),
          some (3/5), some 1⟩, false, 7/5, 19/500⟩ : ClawCfg).solver.cfl_max
            = some (13/20))) ∧
      ((⟨⟨EulerRS.euler_hll_1D, true, none, none, none, none⟩, false, 7/5,
          1/2⟩ : ClawCfg).solver.is_sharpclaw = true ∧
        (⟨⟨EulerRS.euler_hll_1D, true, none, none, none, none⟩, false, 7/5,
          1/2⟩ : ClawCfg).solver.time_integrator = none ∧
        (⟨⟨EulerRS.euler_hll_1D, true, none, none, none, none⟩, false, 7/5,
          1/2⟩ : ClawCfg).solver.cfl_desired = none ∧
        (⟨⟨EulerRS.euler_hll_1D, true, none, none, none, none⟩, false, 7/5,
          1/2⟩ : ClawCfg).solver.cfl_max = none) :=
  ⟨⟨by simp,
    C9_highorder_settings.1 "Roe" "sharpclaw" _ (by simp) rfl⟩,
   C9_highorder_settings.2 "HLL" "sharpclaw" _ (by simp) rfl⟩

/-- C10: any riemann_solver string other than exactly Roe and HLL leaves
the local solver variable rs unbound in shocktube and blastwave, so the
constructors fail (modelled as none) instead of returning a controller. -/
theorem C10_unknown_solver_fails (rs st : String) (h1 : rs ≠ "Roe")
    (h2 : rs ≠ "HLL") :
    shocktube rs st = none ∧ blastwave rs st = none := by
  have hsel : selectRS rs = none := by
    rw [selectRS, if_neg h1, if_neg h2]
  constructor <;> simp [shocktube, blastwave, hsel]

/-- Witness for C10 at the solver name Godunov. -/
theorem C10_witness :
    ("Godunov" ≠ "Roe" ∧ "Godunov" ≠ "HLL") ∧
      (shocktube "Godunov" "classic" = none ∧
        blastwave "Godunov" "classic" = none) :=
  ⟨⟨by simp, by simp⟩,
   C10_unknown_solver_fails "Godunov" "classic" (by simp) (by simp)⟩
